import Mathlib

/-!
Verification development for the link classification and broken-link
verification subsystem of the SEO analyzer backend (the `/analyze` route).

The embedding follows the source closely:

* Anchor traversal and link classification (source lines 70-92): each
  anchor carries an optional `href` and an optional `rel` attribute; a
  truthy `href` is resolved against the base URL, pushed to `allLinks`,
  parsed, and classified by comparing the parsed protocol and host with
  the base page; external links are split by `rel` substring membership
  of `nofollow`, `ugc`, `sponsored`.
* Broken-link verification (source lines 94-172): the `allLinks` list is
  deduplicated through a JS `Set` (first occurrence kept), one request is
  issued per unique URL with `validateStatus` accepting statuses in
  [200, 500); the then-handler records 4xx as `Client Error` and drops
  2xx/3xx; the catch-handler maps every fault shape to a record, so every
  promise fulfills and `Promise.allSettled` collects one settled outcome
  per unique URL.
* Outcome reduction (source lines 273-281): `confirmedBrokenLinksCount`
  and `networkIssueLinksCount` filter the broken-link records by their
  `type` string.

URL parsing itself is the Node `url` library, not repository code, so
resolution and parsing enter the model as oracles; the one documented
library fact the model does encode is that `url.parse` reports `host`
as the hostname followed by `:port` when an explicit port is present.
-/

namespace SeoAnalyzer

/-- JS truthiness-based `a || b` on strings: the empty string is falsy. -/
def jsOr (a b : String) : String := if a = "" then b else a

/-- JS `a || b` where `a` may be `undefined` (modelled as `none`). -/
def jsOrOpt (a : Option String) (b : String) : String :=
  match a with
  | none => b
  | some s => jsOr s b

/-- Whether the character list `c` starts with the character list `p`. -/
def charsStartWith : List Char → List Char → Bool
  | [], _ => true
  | _ :: _, [] => false
  | p :: ps, c :: cs => p = c && charsStartWith ps cs

/-- Whether the character list `pat` occurs contiguously inside `cs`. -/
def charsContain (pat : List Char) : List Char → Bool
  | [] => charsStartWith pat []
  | c :: cs => charsStartWith pat (c :: cs) || charsContain pat cs

/-- JS `s.includes(pat)`: case-sensitive contiguous substring test. -/
def includes (s pat : String) : Bool := charsContain pat.toList s.toList

/-- Semantic notion of case-sensitive substring occurrence, stated as an
explicit split of the character list of `s` around the pattern. -/
def hasSubstring (s pat : String) : Prop :=
  ∃ l r : List Char, s.toList = l ++ pat.toList ++ r

/-- Result of Node `url.parse` restricted to the components the route
reads: `protocol`, `hostname` and `port` (each `null` when absent). -/
structure ParsedUrl where
  protocol : Option String
  hostname : Option String
  port : Option String
deriving Repr, DecidableEq

/-- The `host` component reported by Node `url.parse`: the hostname
followed by a colon and the port when an explicit port is present,
`null` when there is no hostname. -/
def urlHost (u : ParsedUrl) : Option String :=
  match u.hostname with
  | none => none
  | some h =>
    match u.port with
    | none => some h
    | some p => some (h ++ ":" ++ p)

/-- The three disjoint destinations of a classified resolved link. -/
inductive LinkClass where
  | internal
  | externalDofollow
  | externalNofollow
deriving Repr, DecidableEq

/-- Normalization of the `rel` attribute: `$(el).attr(\x27rel\x27) || \x27\x27`. -/
def relString (r : Option String) : String := jsOrOpt r ""

/-- Classification branch of the anchor traversal (source lines 79-87):
internal when parsed protocol and host both equal those of the base page,
otherwise split by `rel` substring membership of `nofollow`, `ugc`,
`sponsored`. -/
def classifyLink (base p : ParsedUrl) (rel : String) : LinkClass :=
  if p.protocol = base.protocol ∧ urlHost p = urlHost base then
    LinkClass.internal
  else if includes rel "nofollow" || includes rel "ugc" || includes rel "sponsored" then
    LinkClass.externalNofollow
  else
    LinkClass.externalDofollow

/-- An anchor tag as seen by the traversal: an optional `href` attribute
and an optional `rel` attribute (absent attributes are `none`). -/
structure Anchor where
  href : Option String
  rel : Option String
deriving Repr, DecidableEq

/-- The four link lists accumulated by the anchor traversal. -/
structure LinkLists where
  allLinks : List String
  internalLinks : List String
  externalDofollowLinks : List String
  externalNofollowLinks : List String
deriving Repr, DecidableEq

/-- Processing of one anchor (source lines 70-92). `rf` is the oracle for
`urlParser.resolve(baseUrl, href)` (`none` when it throws) and `pf` the
oracle for `urlParser.parse(absoluteHref)` (`none` when it throws). The
falsy-href guard skips absent and empty `href`; a throw after the
`allLinks.push` leaves the pushed entry in place, as in JS. -/
def processAnchor (base : ParsedUrl) (rf : String → Option String)
    (pf : String → Option ParsedUrl) (st : LinkLists) (a : Anchor) : LinkLists :=
  match a.href with
  | none => st
  | some h =>
    if h = "" then st
    else
      match rf h with
      | none => st
      | some abs =>
        let st1 : LinkLists := { st with allLinks := st.allLinks ++ [abs] }
        match pf abs with
        | none => st1
        | some p =>
          match classifyLink base p (relString a.rel) with
          | LinkClass.internal =>
              { st1 with internalLinks := st1.internalLinks ++ [abs] }
          | LinkClass.externalNofollow =>
              { st1 with externalNofollowLinks := st1.externalNofollowLinks ++ [abs] }
          | LinkClass.externalDofollow =>
              { st1 with externalDofollowLinks := st1.externalDofollowLinks ++ [abs] }

/-- The whole `$(\x27a\x27).each` traversal as a left fold. -/
def processAnchors (base : ParsedUrl) (rf : String → Option String)
    (pf : String → Option ParsedUrl) (st : LinkLists) (anchors : List Anchor) : LinkLists :=
  anchors.foldl (processAnchor base rf pf) st

/-- The value stored in the `status` field of a broken-link record: the
route stores either a numeric HTTP status or a sentinel label string. -/
inductive StatusVal where
  | num (n : Nat)
  | str (s : String)
deriving Repr, DecidableEq

/-- One entry of the `brokenLinks` array: `{ url, status, type }`. -/
structure BrokenRecord where
  url : String
  status : StatusVal
  type : String
deriving Repr, DecidableEq

/-- The terminal network behaviour of one verification request, the case
split the then/catch handlers dispatch on: a completed HTTP transaction
with a final status, an axios fault with a request but no response
(carrying `error.code` and `error.message`), an axios fault with neither
(setup fault), or a non-axios exception. -/
inductive NetOutcome where
  | response (status : Nat)
  | requestFault (code : Option String) (message : String)
  | setupFault (message : String)
  | otherFault (message : String)
deriving Repr, DecidableEq

/-- The `validateStatus` option (source lines 110-114): resolve for
statuses in [200, 500). -/
def validateStatus (status : Nat) : Bool :=
  200 ≤ status && status < 500

/-- Settlement of one link-check promise (source lines 98-162): the
then-handler runs when `validateStatus` accepts the final status and
records 4xx as `Client Error`, dropping 2xx/3xx; otherwise the
catch-handler maps the fault to a record through the error taxonomy.
Totality of this function embeds the policy that no verification failure
escapes as an exception. -/
def checkLink (link : String) (res : NetOutcome) : Option BrokenRecord :=
  match res with
  | NetOutcome.response s =>
    if validateStatus s then
      if 400 ≤ s ∧ s < 500 then
        some ⟨link, StatusVal.num s, "Client Error"⟩
      else
        none
    else
      if 500 ≤ s then
        some ⟨link, StatusVal.num s, "Server Error"⟩
      else if 400 ≤ s ∧ s < 500 then
        some ⟨link, StatusVal.num s, "Client Error"⟩
      else
        some ⟨link, StatusVal.num s, "Network Issue"⟩
  | NetOutcome.requestFault code msg =>
    if code = some "ECONNABORTED" ∨ code = some "ETIMEDOUT" then
      some ⟨link, StatusVal.str "Timeout", "Network Issue"⟩
    else if code = some "ENOTFOUND" then
      some ⟨link, StatusVal.str "DNS Resolution Failed", "Network Issue"⟩
    else if code = some "ECONNREFUSED" then
      some ⟨link, StatusVal.str "Connection Refused", "Network Issue"⟩
    else if code = some "ERR_NETWORK" then
      some ⟨link, StatusVal.str "Generic Network Error", "Network Issue"⟩
    else
      some ⟨link, StatusVal.str ("Axios Request Error: " ++ jsOrOpt code msg), "Network Issue"⟩
  | NetOutcome.setupFault msg =>
    some ⟨link, StatusVal.str (jsOr msg "Axios Setup Error"), "Unknown Axios Error"⟩
  | NetOutcome.otherFault msg =>
    some ⟨link, StatusVal.str (jsOr msg "Unknown Error"), "Non-Axios Error"⟩

/-- One verification under the network behaviour `net`, which assigns a
terminal outcome to each URL; the result for a link depends only on
`net link`. -/
def verifyLink (net : String → NetOutcome) (link : String) : Option BrokenRecord :=
  checkLink link (net link)

/-- JS `[...new Set(l)]` keeping the first occurrence of each element,
written with an accumulator of already-seen elements. -/
def jsSetDedupAux (seen : List String) : List String → List String
  | [] => []
  | x :: xs =>
    if x ∈ seen then jsSetDedupAux seen xs
    else x :: jsSetDedupAux (x :: seen) xs

/-- The `uniqueLinksToCheck` list (source line 96). -/
def uniqueLinksToCheck (allLinks : List String) : List String :=
  jsSetDedupAux [] allLinks

/-- The list of settled outcomes gathered by `Promise.allSettled`, one
per target in order; each promise fulfills because the catch-handler is
total, so the settled value is exactly `verifyLink`. -/
def verificationOutcomes (net : String → NetOutcome) (targets : List String) :
    List (String × Option BrokenRecord) :=
  targets.map (fun u => (u, verifyLink net u))

/-- The `brokenLinks` array (source lines 95-172): deduplicate, verify
every unique link, keep the non-null settled values. -/
def brokenLinks (net : String → NetOutcome) (allLinks : List String) : List BrokenRecord :=
  (uniqueLinksToCheck allLinks).filterMap (verifyLink net)

/-- Count of confirmed broken links (source line 273). -/
def confirmedBrokenLinksCount (broken : List BrokenRecord) : Nat :=
  (broken.filter (fun r => r.type == "Client Error" || r.type == "Server Error")).length

/-- Count of network-issue links (source line 279); note the filter also
accepts the label `Connection Problem`. -/
def networkIssueLinksCount (broken : List BrokenRecord) : Nat :=
  (broken.filter (fun r => r.type == "Network Issue" || r.type == "Connection Problem")).length

/-- The closed outcome taxonomy of the specification. -/
inductive Category where
  | Reachable
  | ClientError
  | ServerError
  | NetworkIssue
  | RequestSetupError
  | UnknownError
deriving Repr, DecidableEq

/-- Modelled from the spec: the correspondence between the display
strings the code stores in the `type` field and the closed taxonomy of
the specification. The branch taken when an axios error carries neither
a response nor a request, producing the string `Unknown Axios Error`
with the fault message as status label, is the branch the specification
names `RequestSetupError`; the non-axios branch, producing the string
`Non-Axios Error`, is the branch it names `UnknownError`. Strings the
code never produces have no category. -/
def specCategory : String → Option Category
  | "Client Error" => some Category.ClientError
  | "Server Error" => some Category.ServerError
  | "Network Issue" => some Category.NetworkIssue
  | "Unknown Axios Error" => some Category.RequestSetupError
  | "Non-Axios Error" => some Category.UnknownError
  | _ => none

/-! ### Substring characterization -/

theorem charsStartWith_iff (p : List Char) : ∀ c : List Char,
    (charsStartWith p c = true ↔ ∃ r, c = p ++ r) := by
  induction p with
  | nil =>
    intro c
    simp [charsStartWith]
  | cons x xs ih =>
    intro c
    cases c with
    | nil =>
      simp [charsStartWith]
    | cons y ys =>
      simp only [charsStartWith, Bool.and_eq_true, decide_eq_true_eq, ih,
        List.cons_append, List.cons.injEq]
      constructor
      · rintro ⟨rfl, r, rfl⟩
        exact ⟨r, rfl, rfl⟩
      · rintro ⟨r, rfl, rfl⟩
        exact ⟨rfl, r, rfl⟩

theorem charsContain_iff (pat : List Char) : ∀ cs : List Char,
    (charsContain pat cs = true ↔ ∃ l r, cs = l ++ pat ++ r) := by
  intro cs
  induction cs with
  | nil =>
    constructor
    · intro h
      rcases (charsStartWith_iff pat []).mp (by simpa [charsContain] using h) with ⟨r, hr⟩
      exact ⟨[], r, by simpa using hr⟩
    · rintro ⟨l, r, hlr⟩
      obtain ⟨hlp, hr⟩ := List.append_eq_nil.mp hlr.symm
      obtain ⟨hl, hp⟩ := List.append_eq_nil.mp hlp
      simp [charsContain, hp, charsStartWith]
  | cons c cs ih =>
    constructor
    · intro h
      have h' : charsStartWith pat (c :: cs) = true ∨ charsContain pat cs = true := by
        simpa [charsContain] using h
      rcases h' with h1 | h2
      · rcases (charsStartWith_iff pat (c :: cs)).mp h1 with ⟨r, hr⟩
        exact ⟨[], r, by simpa using hr⟩
      · rcases ih.mp h2 with ⟨l, r, hr⟩
        exact ⟨c :: l, r, by simp [hr]⟩
    · rintro ⟨l, r, hlr⟩
      cases l with
      | nil =>
        have h1 : charsStartWith pat (c :: cs) = true :=
          (charsStartWith_iff pat (c :: cs)).mpr ⟨r, by simpa using hlr⟩
        simp [charsContain, h1]
      | cons a l =>
        simp only [List.cons_append] at hlr
        injection hlr with hca hcs
        have h2 : charsContain pat cs = true := ih.mpr ⟨l, r, hcs⟩
        simp [charsContain, h2]

theorem includes_iff (s pat : String) : includes s pat = true ↔ hasSubstring s pat :=
  charsContain_iff pat.toList s.toList

/-! ### Classification characterization -/

theorem classifyLink_internal_iff (base p : ParsedUrl) (rel : String) :
    classifyLink base p rel = LinkClass.internal ↔
      (p.protocol = base.protocol ∧ urlHost p = urlHost base) := by
  unfold classifyLink
  split_ifs with h1 h2 <;> simp_all

theorem classifyLink_nofollow_iff (base p : ParsedUrl) (rel : String) :
    classifyLink base p rel = LinkClass.externalNofollow ↔
      (¬ (p.protocol = base.protocol ∧ urlHost p = urlHost base) ∧
        (includes rel "nofollow" || includes rel "ugc" || includes rel "sponsored") = true) := by
  unfold classifyLink
  split_ifs with h1 h2 <;> simp_all

theorem classifyLink_dofollow_iff (base p : ParsedUrl) (rel : String) :
    classifyLink base p rel = LinkClass.externalDofollow ↔
      (¬ (p.protocol = base.protocol ∧ urlHost p = urlHost base) ∧
        (includes rel "nofollow" || includes rel "ugc" || includes rel "sponsored") = false) := by
  unfold classifyLink
  split_ifs with h1 h2
  · exact ⟨fun h => absurd h (by simp), fun h => absurd h1 h.1⟩
  · constructor
    · intro h
      exact absurd h (by simp)
    · intro h
      rw [h.2] at h2
      exact absurd h2 (by simp)
  · exact ⟨fun _ => ⟨h1, by simpa using h2⟩, fun _ => rfl⟩

/-! ### Facts about one link check -/

theorem checkLink_url (link : String) (res : NetOutcome) (r : BrokenRecord)
    (h : checkLink link res = some r) : r.url = link := by
  cases res <;> simp only [checkLink] at h <;> (try split_ifs at h) <;>
    injection h with h <;> subst h <;> rfl

theorem checkLink_type_cases (link : String) (res : NetOutcome) (r : BrokenRecord)
    (h : checkLink link res = some r) :
    r.type = "Client Error" ∨ r.type = "Server Error" ∨ r.type = "Network Issue" ∨
      r.type = "Unknown Axios Error" ∨ r.type = "Non-Axios Error" := by
  cases res <;> simp only [checkLink] at h <;> (try split_ifs at h) <;>
    injection h with h <;> subst h <;> simp

/-! ### Facts about deduplication -/

theorem mem_jsSetDedupAux (a : String) (l : List String) : ∀ seen : List String,
    (a ∈ jsSetDedupAux seen l ↔ a ∈ l ∧ a ∉ seen) := by
  induction l with
  | nil =>
    intro seen
    simp [jsSetDedupAux]
  | cons x xs ih =>
    intro seen
    by_cases hx : x ∈ seen
    · rw [jsSetDedupAux, if_pos hx, ih]
      constructor
      · rintro ⟨h1, h2⟩
        exact ⟨List.mem_cons_of_mem _ h1, h2⟩
      · rintro ⟨h1, h2⟩
        rcases List.mem_cons.mp h1 with rfl | h1
        · exact absurd hx h2
        · exact ⟨h1, h2⟩
    · rw [jsSetDedupAux, if_neg hx]
      constructor
      · intro h
        rcases List.mem_cons.mp h with rfl | h
        · exact ⟨List.mem_cons_self _ _, hx⟩
        · rcases (ih (x :: seen)).mp h with ⟨h1, h2⟩
          exact ⟨List.mem_cons_of_mem _ h1, fun hs => h2 (List.mem_cons_of_mem _ hs)⟩
      · rintro ⟨h1, h2⟩
        rcases List.mem_cons.mp h1 with rfl | h1
        · exact List.mem_cons_self _ _
        · by_cases hax : a = x
          · subst hax
            exact List.mem_cons_self _ _
          · refine List.mem_cons_of_mem _ ((ih (x :: seen)).mpr ⟨h1, ?_⟩)
            intro hs
            rcases List.mem_cons.mp hs with h | h
            · exact hax h
            · exact h2 h

theorem jsSetDedupAux_nodup (l : List String) : ∀ seen : List String,
    (jsSetDedupAux seen l).Nodup := by
  induction l with
  | nil =>
    intro seen
    simp [jsSetDedupAux]
  | cons x xs ih =>
    intro seen
    by_cases hx : x ∈ seen
    · rw [jsSetDedupAux, if_pos hx]
      exact ih seen
    · rw [jsSetDedupAux, if_neg hx]
      refine List.nodup_cons.mpr ⟨?_, ih (x :: seen)⟩
      intro hmem
      exact ((mem_jsSetDedupAux x xs (x :: seen)).mp hmem).2 (List.mem_cons_self _ _)

theorem mem_uniqueLinksToCheck (a : String) (l : List String) :
    a ∈ uniqueLinksToCheck l ↔ a ∈ l := by
  simp [uniqueLinksToCheck, mem_jsSetDedupAux]

theorem uniqueLinksToCheck_nodup (l : List String) : (uniqueLinksToCheck l).Nodup :=
  jsSetDedupAux_nodup l []

theorem count_uniqueLinksToCheck (l : List String) (u : String) (hu : u ∈ l) :
    (uniqueLinksToCheck l).count u = 1 :=
  List.count_eq_one_of_mem (uniqueLinksToCheck_nodup l) ((mem_uniqueLinksToCheck u l).mpr hu)

/-- Records produced from a target list carry the url of their target,
so a url occurring once in the targets yields at most one record. -/
theorem countP_filterMap_verify (net : String → NetOutcome) (u : String) (ts : List String) :
    (ts.filterMap (verifyLink net)).countP (fun r => r.url == u) ≤ ts.count u := by
  induction ts with
  | nil => simp
  | cons v ts ih =>
    rw [List.filterMap_cons]
    cases hv : verifyLink net v with
    | none =>
      rw [List.count_cons]
      exact le_trans ih (Nat.le_add_right _ _)
    | some r =>
      have hurl : r.url = v := checkLink_url v (net v) r hv
      rw [List.countP_cons, List.count_cons]
      by_cases hvu : v = u <;> simp [hurl, hvu] <;> omega

/-! ### Claim theorems -/

/-- C2: for every verified URL whose HTTP transaction completes with a
status in [200, 500), `validateStatus` accepts the status, so the
transaction is a success and no exception is raised; a status in
[400, 500) yields a broken-link record with that numeric status and type
`Client Error`, while a status in [200, 400) yields no record, and no
record for that URL ever appears in the brokenLinks output. -/
theorem status_acceptance_c2 (net : String → NetOutcome) (link : String) (s : Nat)
    (hres : net link = NetOutcome.response s) (h200 : 200 ≤ s) (h500 : s < 500) :
    validateStatus s = true ∧
    (400 ≤ s → verifyLink net link = some ⟨link, StatusVal.num s, "Client Error"⟩) ∧
    (s < 400 → verifyLink net link = none ∧
      ∀ (l : List String) (r : BrokenRecord), r ∈ brokenLinks net l → r.url ≠ link) := by
  have hval : validateStatus s = true := by
    simp only [validateStatus, Bool.and_eq_true, decide_eq_true_eq]
    omega
  refine ⟨hval, ?_, ?_⟩
  · intro h400
    unfold verifyLink
    rw [hres]
    simp [checkLink, hval, h400, h500]
  · intro hlt
    have hnone : verifyLink net link = none := by
      unfold verifyLink
      rw [hres]
      have h45 : ¬ (400 ≤ s) := by omega
      simp [checkLink, hval, h45]
    refine ⟨hnone, ?_⟩
    intro l r hr hurl
    rcases List.mem_filterMap.mp hr with ⟨v, hvmem, hveq⟩
    have hrv : r.url = v := checkLink_url v (net v) r hveq
    have hvl : v = link := by rw [← hrv, hurl]
    rw [hvl, hnone] at hveq
    exact Option.noConfusion hveq

/-- C2 witness: a 404 response yields a Client Error record. -/
theorem status_acceptance_c2_witness :
    verifyLink (fun _ => NetOutcome.response 404) "http://a/" =
      some ⟨"http://a/", StatusVal.num 404, "Client Error"⟩ :=
  (status_acceptance_c2 (fun _ => NetOutcome.response 404) "http://a/" 404 rfl
    (by decide) (by decide)).2.1 (by decide)

/-- C3: the catch-handler taxonomy. A completed transaction with status
at least 500 yields a `Server Error` record carrying that numeric
status. A fault with a request attempt but no response always yields a
`Network Issue` record whose status label is determined by the fault
code: timeout or aborted gives `Timeout`, name-resolution failure gives
`DNS Resolution Failed`, connection refusal gives
`Connection Refused`, the generic network fault code gives
`Generic Network Error`, and any other fault gets a label carrying the
raw fault code or message. -/
theorem failure_taxonomy_c3 (net : String → NetOutcome) (link : String) :
    (∀ s : Nat, 500 ≤ s → net link = NetOutcome.response s →
      verifyLink net link = some ⟨link, StatusVal.num s, "Server Error"⟩) ∧
    (∀ (code : Option String) (msg : String), net link = NetOutcome.requestFault code msg →
      (∃ r : BrokenRecord, verifyLink net link = some r ∧ r.type = "Network Issue") ∧
      ((code = some "ECONNABORTED" ∨ code = some "ETIMEDOUT") →
        verifyLink net link = some ⟨link, StatusVal.str "Timeout", "Network Issue"⟩) ∧
      (code = some "ENOTFOUND" →
        verifyLink net link =
          some ⟨link, StatusVal.str "DNS Resolution Failed", "Network Issue"⟩) ∧
      (code = some "ECONNREFUSED" →
        verifyLink net link =
          some ⟨link, StatusVal.str "Connection Refused", "Network Issue"⟩) ∧
      (code = some "ERR_NETWORK" →
        verifyLink net link =
          some ⟨link, StatusVal.str "Generic Network Error", "Network Issue"⟩) ∧
      (code ≠ some "ECONNABORTED" → code ≠ some "ETIMEDOUT" → code ≠ some "ENOTFOUND" →
        code ≠ some "ECONNREFUSED" → code ≠ some "ERR_NETWORK" →
        verifyLink net link =
          some ⟨link, StatusVal.str ("Axios Request Error: " ++ jsOrOpt code msg),
            "Network Issue"⟩)) := by
  constructor
  · intro s h5 hres
    have hvs : validateStatus s = false := by
      have hns : ¬ (s < 500) := by omega
      simp [validateStatus, hns]
    unfold verifyLink
    rw [hres]
    have h45 : ¬ (400 ≤ s ∧ s < 500) := by omega
    simp [checkLink, hvs, h5]
  · intro code msg hres
    refine ⟨?_, ?_, ?_, ?_, ?_, ?_⟩
    · unfold verifyLink
      rw [hres]
      simp only [checkLink]
      split_ifs <;> exact ⟨_, rfl, rfl⟩
    · intro h1
      unfold verifyLink
      rw [hres]
      simp [checkLink, h1]
    · intro h2
      subst h2
      unfold verifyLink
      rw [hres]
      simp [checkLink]
    · intro h3
      subst h3
      unfold verifyLink
      rw [hres]
      simp [checkLink]
    · intro h4
      subst h4
      unfold verifyLink
      rw [hres]
      simp [checkLink]
    · intro n1 n2 n3 n4 n5
      unfold verifyLink
      rw [hres]
      simp [checkLink, n1, n2, n3, n4, n5]

/-- C3 witness: a name-resolution failure yields a Network Issue record
labelled DNS Resolution Failed. -/
theorem failure_taxonomy_c3_witness :
    verifyLink (fun _ => NetOutcome.requestFault (some "ENOTFOUND") "getaddrinfo failed")
        "http://a/" =
      some ⟨"http://a/", StatusVal.str "DNS Resolution Failed", "Network Issue"⟩ :=
  ((failure_taxonomy_c3 (fun _ => NetOutcome.requestFault (some "ENOTFOUND") "getaddrinfo failed")
    "http://a/").2 (some "ENOTFOUND") "getaddrinfo failed" rfl).2.2.1 rfl

/-- C4: a fault in which no request attempt was made yields a record
with the fault message as status label and the type string the
specification taxonomy names `RequestSetupError`; a completely
unrecognized (non-axios) fault shape yields a record whose type string
the specification taxonomy names `UnknownError`. -/
theorem setup_unknown_c4 (net : String → NetOutcome) (link msg : String) :
    (net link = NetOutcome.setupFault msg → msg ≠ "" →
      verifyLink net link = some ⟨link, StatusVal.str msg, "Unknown Axios Error"⟩ ∧
      specCategory "Unknown Axios Error" = some Category.RequestSetupError) ∧
    (net link = NetOutcome.otherFault msg →
      ∃ r : BrokenRecord, verifyLink net link = some r ∧ r.type = "Non-Axios Error" ∧
        specCategory r.type = some Category.UnknownError) := by
  constructor
  · intro hres hmsg
    refine ⟨?_, rfl⟩
    unfold verifyLink
    rw [hres]
    simp [checkLink, jsOr, hmsg]
  · intro hres
    refine ⟨⟨link, StatusVal.str (jsOr msg "Unknown Error"), "Non-Axios Error"⟩, ?_, rfl, rfl⟩
    unfold verifyLink
    rw [hres]
    rfl

/-- C4 witness: a setup fault with a message yields that message as
status label and the RequestSetupError category. -/
theorem setup_unknown_c4_witness :
    verifyLink (fun _ => NetOutcome.setupFault "Invalid URL") "badurl" =
      some ⟨"badurl", StatusVal.str "Invalid URL", "Unknown Axios Error"⟩ :=
  ((setup_unknown_c4 (fun _ => NetOutcome.setupFault "Invalid URL") "badurl" "Invalid URL").1
    rfl (by decide)).1

/-- C1: for a set of unique verification targets the phase settles
exactly one outcome per URL, the outcome list covers every target, and
the outcome of each URL is a total function of that URL's own network
behaviour alone, so one URL's failure never aborts or skips another's
verification; totality of `verifyLink` embeds the policy that no
verification failure ever escapes the phase as an exception. -/
theorem verification_join_c1 (net net2 : String → NetOutcome) (targets : List String)
    (hnd : targets.Nodup) :
    (verificationOutcomes net targets).length = targets.length ∧
    (∀ u ∈ targets,
      (verificationOutcomes net targets).countP (fun o => o.fst == u) = 1 ∧
      (u, verifyLink net u) ∈ verificationOutcomes net targets ∧
      (net2 u = net u → (u, verifyLink net u) ∈ verificationOutcomes net2 targets)) := by
  refine ⟨by simp [verificationOutcomes], ?_⟩
  intro u hu
  refine ⟨?_, ?_, ?_⟩
  · rw [verificationOutcomes, List.countP_map]
    show targets.count u = 1
    exact List.count_eq_one_of_mem hnd hu
  · exact List.mem_map_of_mem _ hu
  · intro hag
    have hsame : verifyLink net2 u = verifyLink net u := by
      unfold verifyLink
      rw [hag]
    rw [← hsame]
    exact List.mem_map_of_mem _ hu

/-- C1 witness: two unique targets settle two outcomes, exactly one of
them for the first target. -/
theorem verification_join_c1_witness :
    (verificationOutcomes (fun _ => NetOutcome.response 200) ["http://a/", "http://b/"]).length
        = 2 ∧
    (verificationOutcomes (fun _ => NetOutcome.response 200) ["http://a/", "http://b/"]).countP
        (fun o => o.fst == "http://a/") = 1 := by
  have h := verification_join_c1 (fun _ => NetOutcome.response 200)
    (fun u => if u = "http://a/" then NetOutcome.response 200 else NetOutcome.otherFault "boom")
    ["http://a/", "http://b/"] (by decide)
  exact ⟨h.1, (h.2 "http://a/" (by decide)).1⟩

/-- C7: a URL occurring N times (N at least 1) in the collected link
list occurs exactly once in the deduplicated list that drives the
verification requests, and contributes at most one record to the
brokenLinks output. -/
theorem dedup_single_check_c7 (net : String → NetOutcome) (l : List String) (u : String)
    (hu : u ∈ l) :
    (uniqueLinksToCheck l).count u = 1 ∧
    (brokenLinks net l).countP (fun r => r.url == u) ≤ 1 := by
  refine ⟨count_uniqueLinksToCheck l u hu, ?_⟩
  have h := countP_filterMap_verify net u (uniqueLinksToCheck l)
  rw [count_uniqueLinksToCheck l u hu] at h
  exact h

/-- C7 witness: a URL listed twice is scheduled once and, failing with
a 404, yields exactly at most one record. -/
theorem dedup_single_check_c7_witness :
    (uniqueLinksToCheck ["http://a/", "http://a/"]).count "http://a/" = 1 ∧
    (brokenLinks (fun _ => NetOutcome.response 404) ["http://a/", "http://a/"]).countP
      (fun r => r.url == "http://a/") ≤ 1 :=
  dedup_single_check_c7 (fun _ => NetOutcome.response 404) ["http://a/", "http://a/"]
    "http://a/" (by decide)

/-- C9: on any brokenLinks output, confirmedBrokenLinksCount counts
exactly the records typed Client Error or Server Error, and
networkIssueLinksCount counts exactly the records typed Network Issue:
the Connection Problem label its filter also tests for is never
produced by the verification taxonomy, so it never contributes. -/
theorem reducer_counts_c9 (net : String → NetOutcome) (l : List String) :
    confirmedBrokenLinksCount (brokenLinks net l) =
      ((brokenLinks net l).filter
        (fun r => r.type == "Client Error" || r.type == "Server Error")).length ∧
    networkIssueLinksCount (brokenLinks net l) =
      ((brokenLinks net l).filter (fun r => r.type == "Network Issue")).length ∧
    ∀ r ∈ brokenLinks net l, r.type ≠ "Connection Problem" := by
  have hnp : ∀ r ∈ brokenLinks net l, r.type ≠ "Connection Problem" := by
    intro r hr
    rcases List.mem_filterMap.mp hr with ⟨v, hvmem, hveq⟩
    rcases checkLink_type_cases v (net v) r hveq with h | h | h | h | h <;> rw [h] <;> decide
  refine ⟨rfl, ?_, hnp⟩
  unfold networkIssueLinksCount
  congr 1
  apply List.filter_congr
  intro r hr
  have hcp : (r.type == "Connection Problem") = false := by
    have := hnp r hr
    simp [this]
  rw [hcp, Bool.or_false]

/-- C9 witness: a timeout yields one Network Issue record, counted by
networkIssueLinksCount, and its type is not Connection Problem. -/
theorem reducer_counts_c9_witness :
    networkIssueLinksCount
        (brokenLinks (fun _ => NetOutcome.requestFault (some "ETIMEDOUT") "t") ["http://a/"]) =
      ((brokenLinks (fun _ => NetOutcome.requestFault (some "ETIMEDOUT") "t")
          ["http://a/"]).filter (fun r => r.type == "Network Issue")).length ∧
    (⟨"http://a/", StatusVal.str "Timeout", "Network Issue"⟩ : BrokenRecord).type ≠
      "Connection Problem" := by
  have h := reducer_counts_c9 (fun _ => NetOutcome.requestFault (some "ETIMEDOUT") "t")
    ["http://a/"]
  refine ⟨h.2.1, h.2.2 _ ?_⟩
  decide

/-- Exactly one of the three classified link lists received the given
element, and the other two are unchanged. -/
def exactlyOneGrew (old new : LinkLists) (x : String) : Prop :=
  (new.internalLinks = old.internalLinks ++ [x] ∧
    new.externalDofollowLinks = old.externalDofollowLinks ∧
    new.externalNofollowLinks = old.externalNofollowLinks) ∨
  (new.externalDofollowLinks = old.externalDofollowLinks ++ [x] ∧
    new.internalLinks = old.internalLinks ∧
    new.externalNofollowLinks = old.externalNofollowLinks) ∨
  (new.externalNofollowLinks = old.externalNofollowLinks ++ [x] ∧
    new.internalLinks = old.internalLinks ∧
    new.externalDofollowLinks = old.externalDofollowLinks)

/-- C5: a resolvable anchor (truthy href, resolution and parsing both
succeed) is placed on the internal list exactly when parsed protocol
and host both equal those of the base page, and it lands in exactly one
of the three disjoint classified lists. -/
theorem link_classification_c5 (base : ParsedUrl) (rf : String → Option String)
    (pf : String → Option ParsedUrl) (st : LinkLists) (a : Anchor)
    (h abs : String) (p : ParsedUrl)
    (hh : a.href = some h) (hne : h ≠ "") (hr : rf h = some abs) (hp : pf abs = some p) :
    ((processAnchor base rf pf st a).internalLinks = st.internalLinks ++ [abs] ↔
      (p.protocol = base.protocol ∧ urlHost p = urlHost base)) ∧
    exactlyOneGrew st (processAnchor base rf pf st a) abs := by
  simp only [processAnchor, hh, hr, hp]
  rw [if_neg hne]
  cases hcl : classifyLink base p (relString a.rel) with
  | internal =>
    have hcond := (classifyLink_internal_iff base p (relString a.rel)).mp hcl
    exact ⟨iff_of_true rfl hcond, Or.inl ⟨rfl, rfl, rfl⟩⟩
  | externalDofollow =>
    have hcond := (classifyLink_dofollow_iff base p (relString a.rel)).mp hcl
    refine ⟨iff_of_false ?_ hcond.1, Or.inr (Or.inl ⟨rfl, rfl, rfl⟩)⟩
    intro hfalse
    have hlen := congrArg List.length hfalse
    simp at hlen
  | externalNofollow =>
    have hcond := (classifyLink_nofollow_iff base p (relString a.rel)).mp hcl
    refine ⟨iff_of_false ?_ hcond.1, Or.inr (Or.inr ⟨rfl, rfl, rfl⟩)⟩
    intro hfalse
    have hlen := congrArg List.length hfalse
    simp at hlen

/-- C5 witness: href /about on base http://example.com resolves and is
classified internal. -/
theorem link_classification_c5_witness :
    (processAnchor ⟨some "http:", some "example.com", none⟩
        (fun _ => some "http://example.com/about")
        (fun _ => some ⟨some "http:", some "example.com", none⟩)
        ⟨[], [], [], []⟩ ⟨some "/about", none⟩).internalLinks =
      ["http://example.com/about"] := by
  have hc5 := link_classification_c5 ⟨some "http:", some "example.com", none⟩
    (fun _ => some "http://example.com/about")
    (fun _ => some ⟨some "http:", some "example.com", none⟩)
    ⟨[], [], [], []⟩ ⟨some "/about", none⟩ "/about" "http://example.com/about"
    ⟨some "http:", some "example.com", none⟩ rfl (by decide) rfl rfl
  simpa using hc5.1.mpr ⟨rfl, rfl⟩

/-- C6: for an external link, the follow-policy is unfollowed exactly
when the rel attribute value contains nofollow, ugc or sponsored as a
case-sensitive contiguous substring; otherwise, and in particular when
the rel attribute is absent, the link is followable. -/
theorem follow_policy_c6 (base p : ParsedUrl) (relAttr : Option String)
    (hext : ¬ (p.protocol = base.protocol ∧ urlHost p = urlHost base)) :
    (classifyLink base p (relString relAttr) = LinkClass.externalNofollow ↔
      (hasSubstring (relString relAttr) "nofollow" ∨ hasSubstring (relString relAttr) "ugc" ∨
        hasSubstring (relString relAttr) "sponsored")) ∧
    (classifyLink base p (relString relAttr) ≠ LinkClass.externalNofollow →
      classifyLink base p (relString relAttr) = LinkClass.externalDofollow) ∧
    (relAttr = none → classifyLink base p (relString relAttr) = LinkClass.externalDofollow) := by
  have hflag : ∀ rel : String,
      ((includes rel "nofollow" || includes rel "ugc" || includes rel "sponsored") = true ↔
        (hasSubstring rel "nofollow" ∨ hasSubstring rel "ugc" ∨ hasSubstring rel "sponsored")) := by
    intro rel
    simp only [Bool.or_eq_true, includes_iff]
    tauto
  refine ⟨?_, ?_, ?_⟩
  · rw [classifyLink_nofollow_iff]
    constructor
    · rintro ⟨-, hf⟩
      exact (hflag _).mp hf
    · intro hsub
      exact ⟨hext, (hflag _).mpr hsub⟩
  · intro hnf
    cases hcl : classifyLink base p (relString relAttr) with
    | internal =>
      exact absurd ((classifyLink_internal_iff base p (relString relAttr)).mp hcl) hext
    | externalDofollow => rfl
    | externalNofollow => exact absurd hcl hnf
  · intro hnone
    subst hnone
    rw [classifyLink_dofollow_iff]
    exact ⟨hext, by decide⟩

/-- C6 witness: rel nofollow on a cross-host link gives an unfollowed
external link. -/
theorem follow_policy_c6_witness :
    classifyLink ⟨some "http:", some "example.com", none⟩ ⟨some "http:", some "other.com", none⟩
      (relString (some "nofollow")) = LinkClass.externalNofollow := by
  have hc6 := follow_policy_c6 ⟨some "http:", some "example.com", none⟩
    ⟨some "http:", some "other.com", none⟩ (some "nofollow") (by decide)
  exact hc6.1.mpr (Or.inl ⟨[], [], by decide⟩)

/-- C8 counterexample: with base http://example.com and a link parsing
to protocol http and host example.com:8080, the host strings differ, so
the link is not classified internal: the explicit port is not ignored,
refuting the claim. -/
theorem port_counterexample_c8 :
    classifyLink ⟨some "http:", some "example.com", none⟩
      ⟨some "http:", some "example.com", some "8080"⟩ "" ≠ LinkClass.internal := by
  decide

/-- C8 amended: origin comparison does not ignore port numbers: a
resolved link differing from the base page only in carrying an explicit
port has a different parsed host string, so it is never classified
internal, whatever its rel attribute. -/
theorem explicit_port_external_c8 (base p : ParsedUrl) (rel hostname pport : String)
    (hbh : base.hostname = some hostname) (hph : p.hostname = some hostname)
    (hproto : p.protocol = base.protocol)
    (hbp : base.port = none) (hpp : p.port = some pport) :
    classifyLink base p rel ≠ LinkClass.internal := by
  intro hcl
  have hcond := (classifyLink_internal_iff base p rel).mp hcl
  have hhost : urlHost p = urlHost base := hcond.2
  simp only [urlHost, hbh, hph, hbp, hpp, Option.some.injEq] at hhost
  have hlen := congrArg String.length hhost
  rw [String.length_append, String.length_append] at hlen
  have hcolon : (":" : String).length = 1 := rfl
  omega

/-- C8 amended witness: http://example.com:8080 with rel x is not
internal relative to base http://example.com. -/
theorem explicit_port_external_c8_witness :
    classifyLink ⟨some "http:", some "example.com", none⟩
      ⟨some "http:", some "example.com", some "8080"⟩ "x" ≠ LinkClass.internal :=
  explicit_port_external_c8 ⟨some "http:", some "example.com", none⟩
    ⟨some "http:", some "example.com", some "8080"⟩ "x" "example.com" "8080"
    rfl rfl rfl rfl rfl

/-- C10: an anchor with an absent or empty href leaves the traversal
state untouched: nothing is added to allLinks, internalLinks,
externalDofollowLinks or externalNofollowLinks, and removing such an
anchor from any traversal leaves the whole result, hence the set of
verification targets, unchanged, so no verification request is ever
issued for it. -/
theorem empty_href_skipped_c10 (base : ParsedUrl) (rf : String → Option String)
    (pf : String → Option ParsedUrl) (st : LinkLists) (a : Anchor)
    (ha : a.href = none ∨ a.href = some "") :
    processAnchor base rf pf st a = st ∧
    (∀ l1 l2 : List Anchor,
      processAnchors base rf pf st (l1 ++ a :: l2) = processAnchors base rf pf st (l1 ++ l2)) := by
  have hstep : ∀ st' : LinkLists, processAnchor base rf pf st' a = st' := by
    intro st'
    rcases ha with h | h <;> simp [processAnchor, h]
  refine ⟨hstep st, ?_⟩
  intro l1 l2
  unfold processAnchors
  rw [List.foldl_append, List.foldl_append, List.foldl_cons, hstep]

/-- C10 witness: an empty-href anchor leaves a concrete state
unchanged. -/
theorem empty_href_skipped_c10_witness :
    processAnchor ⟨some "http:", some "example.com", none⟩ (fun s => some s)
      (fun _ => some ⟨some "http:", some "example.com", none⟩)
      ⟨["http://x/"], [], [], []⟩ ⟨some "", some "nofollow"⟩ =
      ⟨["http://x/"], [], [], []⟩ :=
  (empty_href_skipped_c10 ⟨some "http:", some "example.com", none⟩ (fun s => some s)
    (fun _ => some ⟨some "http:", some "example.com", none⟩)
    ⟨["http://x/"], [], [], []⟩ ⟨some "", some "nofollow"⟩ (Or.inr rfl)).1

end SeoAnalyzer
